import Mathlib

/-!
Verification of libpi2cslave (src/pi2cslave.c, src/pi2cslave.h).

The C code drives a memory-mapped Broadcom BSC peripheral in I2C slave
mode.  The shallow embedding below models:

* the header constants verbatim;
* the GPIO register file as a word-indexed function `Nat → Nat` together
  with an explicit trace of (index, value) register stores, because several
  claims are frame conditions about which registers get written;
* the BSC receive path (`bsc_i2c_read_poll`) over a simulated hardware
  state holding the receive FIFO contents and the RSR status register;
* the BSC transmit path (`bsc_i2c_write`) over a simulated hardware state
  holding the two FIFOs, the one byte staged in the output shift register
  (the hardware byte that the source comments call "sucked off the FIFO,
  ready to be sent"), and the RSR register.  The bus master and the
  passage of time during `usleep` are an explicit schedule parameter; the
  outer loop of the C function runs until the master writes, so a run of
  the model terminates normally exactly when the schedule eventually makes
  the receive FIFO non-empty.
* the unchecked global pointers `bsc`/`gpio_reg` as `Option` parameters; a
  dereference while the mapping is not established is a `RegFault`, which
  is distinct from the error result (`false` / 0) the functions return
  deliberately.

Machine integers are `Nat` with explicit masking where the C code masks;
register values written by the code use the same bit operations as the C.
-/

/-! ## Header constants (src/pi2cslave.h) -/

def GPIO_COUNT : Nat := 28
def GPSET0 : Nat := 0x1C
def GPCLR0 : Nat := 0x28

def GPIO_FUN_IN : Nat := 0x0
def GPIO_FUN_OUT : Nat := 0x1
def GPIO_FUN_ALT3 : Nat := 0x7
def GPIO_FUN_MASK : Nat := 0x7
def GPIO_FUN_SHIFT : Nat := 3
def GPIO_FUN_PER_REG : Nat := 10

def GPIO_SDA : Nat := 18
def GPIO_SCL : Nat := 19

def BSC_DR : Nat := 0
def BSC_RSR : Nat := 1
def BSC_SLV : Nat := 2
def BSC_CR : Nat := 3
def BSC_FR : Nat := 4
def BSC_IMSC : Nat := 6
def BSC_ICR : Nat := 9

def CR_RXE : Nat := 1 <<< 9
def CR_TXE : Nat := 1 <<< 8
def CR_BRK : Nat := 1 <<< 7
def CR_I2C : Nat := 1 <<< 2
def CR_EN : Nat := 1 <<< 0

def FR_RXBUSY : Nat := 1 <<< 5
def FR_TXFE : Nat := 1 <<< 4
def FR_TXFF : Nat := 1 <<< 2
def FR_RXFE : Nat := 1 <<< 1

def RSR_UE : Nat := 1 <<< 1
def RSR_OE : Nat := 1 <<< 0

def FIFO_LEN : Nat := 16

/-! ## GPIO register model

`gpio_reg` is a word-indexed register file.  Every modelled operation
returns, besides the new register file, the list of (word index, value)
stores it performed, oldest first. -/

/-- Point update of a word-indexed register file. -/
def updReg (f : Nat → Nat) (i v : Nat) : Nat → Nat :=
  fun j => if j = i then v else f j

/-- Model of the C `gpio_set_mode(gpio, mode)`: two read-modify-write stores
to the function-select register owning the pin.  `~(GPIO_FUN_MASK << shift)`
on a `uint32_t` is `0xFFFFFFFF ^^^ (GPIO_FUN_MASK <<< shift)`. -/
def gpio_set_mode (g : Nat → Nat) (gpio mode : Nat) : (Nat → Nat) × List (Nat × Nat) :=
  let reg := gpio / GPIO_FUN_PER_REG
  let shift := (gpio % GPIO_FUN_PER_REG) * GPIO_FUN_SHIFT
  let v1 := g reg &&& (0xFFFFFFFF ^^^ (GPIO_FUN_MASK <<< shift))
  let v2 := v1 ||| (mode <<< shift)
  (updReg (updReg g reg v1) reg v2, [(reg, v1), (reg, v2)])

/-- The three members of the C `enum gpio_state`. -/
inductive gpio_state where
  | FLOAT
  | LOW
  | HIGH
deriving DecidableEq

/-- Model of `bcm_set_gpio_out(gpio, state)`.  `mapped` is whether the
global `gpio_reg` pointer is non-null; `gpio` is a C `int`, hence `Int`.
Result: (return value, final register file, store trace). -/
def bcm_set_gpio_out (mapped : Bool) (g : Nat → Nat) (gpio : Int) (state : gpio_state) :
    Bool × (Nat → Nat) × List (Nat × Nat) :=
  if ¬mapped then (false, g, [])
  else if gpio < 0 ∨ (GPIO_COUNT : Int) ≤ gpio then (false, g, [])
  else
    match state with
    | .FLOAT =>
        let r := gpio_set_mode g gpio.toNat GPIO_FUN_IN
        (true, r.1, r.2)
    | .LOW =>
        let v := g GPCLR0 ||| (1 <<< gpio.toNat)
        let r := gpio_set_mode (updReg g GPCLR0 v) gpio.toNat GPIO_FUN_OUT
        (true, r.1, (GPCLR0, v) :: r.2)
    | .HIGH =>
        let v := g GPSET0 ||| (1 <<< gpio.toNat)
        let r := gpio_set_mode (updReg g GPSET0 v) gpio.toNat GPIO_FUN_OUT
        (true, r.1, (GPSET0, v) :: r.2)

/-! ## Mapping setup (init_bcm_reg_mem)

`openOk` models whether `open("/dev/mem", ...)` succeeded; `bscMap` and
`gpioMap` model the results of the two `do_mmap` calls (`none` = failure,
mirroring the NULL comparisons the code performs).  The body mirrors the
source line by line, including the second `if (bsc == NULL)` test at
src/pi2cslave.c:48, which re-examines `bsc` after `gpio_reg` has been
assigned. -/

set_option linter.unusedVariables false in
def init_bcm_reg_mem (openOk : Bool) (bscMap gpioMap : Option Nat) : Bool :=
  if ¬openOk then false
  else
    let bsc := bscMap
    if bsc = none then false
    else
      let gpio_reg := gpioMap
      if bsc = none then false
      else true

/-! ## Register access through the process-wide pointers

The C functions reach the peripheral through the globals `bsc` and
`gpio_reg`.  Several functions dereference them without a null check.  In
the model the mapped state is an `Option`; dereferencing `none` is a
`RegFault.nullDeref`, which is an undefined-behavior crash in C, not an
error result returned to the caller. -/

inductive RegFault where
  | nullDeref
deriving DecidableEq

/-- Model of `init_bsc_i2c_slv(i2c_addr)`.  `bscMapped` is whether the
global `bsc` pointer is non-null (the function checks it and returns
`false` when it is null).  `g` is the GPIO register file, updated by the
two `gpio_set_mode` calls for the SDA/SCL pins.  The third component is
the trace of stores to BSC registers, in program order. -/
def init_bsc_i2c_slv (bscMapped : Bool) (g : Nat → Nat) (i2c_addr : Nat) :
    Bool × (Nat → Nat) × List (Nat × Nat) :=
  if ¬bscMapped then (false, g, [])
  else
    let g1 := (gpio_set_mode g GPIO_SDA GPIO_FUN_ALT3).1
    let g2 := (gpio_set_mode g1 GPIO_SCL GPIO_FUN_ALT3).1
    (true, g2,
      [(BSC_CR, CR_BRK), (BSC_RSR, 0), (BSC_IMSC, 0xf), (BSC_ICR, 0xf),
       (BSC_SLV, (i2c_addr % 256) >>> 1),
       (BSC_CR, CR_TXE ||| CR_RXE ||| CR_I2C ||| CR_EN)])

/-- Model of `shutdown_bsc_i2c_slv()`: stores 0 to the control register
with no null check of `bsc` (src/pi2cslave.c:140).  The argument is the
current CR value behind the `bsc` pointer, `none` when unmapped; the
result is the new CR value. -/
def shutdown_bsc_i2c_slv (bscCR : Option Nat) : Except RegFault Nat :=
  match bscCR with
  | none => .error .nullDeref
  | some _ => .ok 0

/-- Model of `bsc_i2c_receiving()`: reads the flag register with no null
check of `bsc`.  The argument is the FR value, `none` when unmapped. -/
def bsc_i2c_receiving (bscFR : Option Nat) : Except RegFault Bool :=
  match bscFR with
  | none => .error .nullDeref
  | some fr => .ok (fr &&& FR_RXBUSY ≠ 0)

/-! ## Receive path (bsc_i2c_read_poll)

Simulated hardware state for the receive side: the receive FIFO contents
(oldest byte first) and the RSR status register.  Reading the data
register pops the FIFO head; the FR receive-FIFO-empty flag is the
emptiness of the list. -/

structure RxState where
  rxFifo : List Nat
  rsr : Nat
deriving DecidableEq

/-- Body of one iteration of the read loop (src/pi2cslave.c:162-171):
if the RSR overrun bit is set, clear it by storing `rsr & ~RSR_OE`
(`~RSR_OE` on a `uint32_t` is `0xFFFFFFFE`); then pop one byte from the
data register, masked to 8 bits.  The list-empty case is unreachable
under the loop guard and returns 0 reads. -/
def readBody (st : RxState) : RxState × Nat :=
  let rsr1 := if st.rsr &&& RSR_OE ≠ 0 then st.rsr &&& 0xFFFFFFFE else st.rsr
  match st.rxFifo with
  | [] => ({ rxFifo := [], rsr := rsr1 }, 0)
  | b :: rest => ({ rxFifo := rest, rsr := rsr1 }, b % 256)

/-- The C read loop `for (; len && !RX_EMPTY(); len--)`: runs while
space remains and the receive FIFO is non-empty, collecting the popped
bytes in order. -/
def readLoop (len : Nat) (st : RxState) : RxState × List Nat :=
  match len with
  | 0 => (st, [])
  | Nat.succ n =>
      if st.rxFifo.isEmpty then (st, [])
      else
        let r1 := readBody st
        let r2 := readLoop n r1.1
        (r2.1, r1.2 :: r2.2)

/-- Model of `bsc_i2c_read_poll(buf, len)` over an established mapping:
returns 0 when `len == 0 || buf == NULL`, otherwise runs the read loop.
Result: (final hardware state, bytes delivered to the buffer, return
value `read`). -/
def bsc_i2c_read_poll (bufNull : Bool) (len : Nat) (st : RxState) :
    RxState × List Nat × Nat :=
  if len = 0 ∨ bufNull then (st, [], 0)
  else
    let r := readLoop len st
    (r.1, r.2, r.2.length)

/-- Model of `bsc_i2c_read_poll` with the global `bsc` pointer: the
`len`/`buf` early return happens before any register access, after which
the loop guard reads the flag register through `bsc` with no null check. -/
def bsc_i2c_read_poll_m (bsc : Option RxState) (bufNull : Bool) (len : Nat) :
    Except RegFault Nat :=
  if len = 0 ∨ bufNull then .ok 0
  else
    match bsc with
    | none => .error .nullDeref
    | some st => .ok (bsc_i2c_read_poll bufNull len st).2.2


/-! ## Transmit path (bsc_i2c_write)

Simulated hardware state for the transmit side.  Besides the two FIFOs
and the RSR register it models the single byte the peripheral stages in
its output shift register: the source comment (src/pi2cslave.c:206-208)
describes it as the byte "which got sucked off the FIFO, ready to be
sent, but never was sent", and the flush workaround depends on it: each
off/on toggle of CR_TXE "drops the current TX byte and pops the next one
out of the FIFO" (src/pi2cslave.c:224-227).  The FR flags the code reads
are functions of this state: RXFE is emptiness of `rxFifo`, TXFF is
`txFifo` holding FIFO_LEN entries, TXFE is emptiness of `txFifo`, and
GET_FR_TXFLEVEL() is the length of `txFifo` (the staged byte is not
reflected in the level or in TXFE, which is exactly why the code
subtracts the extra 1 and toggles once more after TXFE). -/

structure TxHw where
  rxFifo : List Nat
  txFifo : List Nat
  staged : Option Nat
  rsr : Nat
deriving DecidableEq

/-- Hardware behaviour: whenever the output stage is free and the TX FIFO
is non-empty, the peripheral moves the oldest FIFO byte into the stage. -/
def restage (hw : TxHw) : TxHw :=
  match hw.staged, hw.txFifo with
  | none, b :: rest => { hw with staged := some b, txFifo := rest }
  | _, _ => hw

/-- Effect of `bsc[BSC_DR] = byte`: the byte enters the TX FIFO, and the
hardware stages it immediately if the output stage is free. -/
def pushDR (b : Nat) (hw : TxHw) : TxHw :=
  restage { hw with txFifo := hw.txFifo ++ [b] }

/-- Effect of one off/on toggle of CR_TXE (`bsc[BSC_CR] &= ~CR_TXE;
bsc[BSC_CR] |= CR_TXE;`): the staged byte is dropped and the next FIFO
entry is staged. -/
def toggleTXE (hw : TxHw) : TxHw :=
  restage { hw with staged := none }

/-- Occupancy of the transmit side including the staged byte. -/
def txOcc (hw : TxHw) : Nat :=
  hw.txFifo.length + (if hw.staged.isSome then 1 else 0)

/-- The master clocks out `n` bytes: each consumes the staged byte (which
is then refilled from the FIFO); clocking a read with nothing staged is a
transmit underrun and sets the RSR UE bit. -/
def txConsume : Nat → TxHw → TxHw
  | 0, hw => hw
  | n + 1, hw =>
      match hw.staged with
      | some _ => txConsume n (restage { hw with staged := none })
      | none => txConsume n { hw with rsr := hw.rsr ||| RSR_UE }

/-- What the environment does during one `usleep(WRITE_USLEEP_INTERVAL)`
of the outer loop: the master consumes some transmitted bytes and may
start writing, the written bytes landing in the receive FIFO. -/
structure MasterStep where
  consume : Nat
  arrive : List Nat
deriving DecidableEq

def applyMaster (step : MasterStep) (hw : TxHw) : TxHw :=
  let hw1 := txConsume step.consume hw
  { hw1 with rxFifo := hw1.rxFifo ++ step.arrive }

/-- The underrun check of the fill loop (src/pi2cslave.c:188-192): if the
RSR UE bit is set, clear it by storing `rsr & ~RSR_UE` (`0xFFFFFFFD` on
`uint32_t`). -/
def clearUE (hw : TxHw) : TxHw :=
  if hw.rsr &&& RSR_UE ≠ 0 then { hw with rsr := hw.rsr &&& 0xFFFFFFFD } else hw

/-- The inner fill loop `while (!(bsc[BSC_FR] & FR_TXFF))`
(src/pi2cslave.c:185-201), structurally recursive on `fuel`.  Per
iteration: underrun check, then `cb(addr++, &byte)` — the address, a
`uint16_t`, advances once per invocation with wraparound — and on
success the byte is stored to the data register and `offset` counts it;
on failure the loop breaks.  Result: (new addr, new offset, new hardware
state, addresses passed to `cb` in order).  Each successful iteration
raises `txOcc` by one and the loop stops at FIFO_LEN entries, so any
`fuel ≥ FIFO_LEN + 2` exceeds the possible iteration count and the fuel
branch is never the one that exits. -/
def fillLoopF (cb : Nat → Option Nat) : Nat → Nat → Nat → TxHw → Nat × Nat × TxHw × List Nat
  | 0, addr, offset, hw => (addr, offset, hw, [])
  | fuel + 1, addr, offset, hw =>
      if FIFO_LEN ≤ hw.txFifo.length then (addr, offset, hw, [])
      else
        match cb addr with
        | some b =>
            match fillLoopF cb fuel ((addr + 1) % 65536) (offset + 1)
                (pushDR (b % 256) (clearUE hw)) with
            | (a2, o2, hw2, tr) => (a2, o2, hw2, addr :: tr)
        | none => ((addr + 1) % 65536, offset, clearUE hw, [addr])

def fillLoop (cb : Nat → Option Nat) (addr offset : Nat) (hw : TxHw) :
    Nat × Nat × TxHw × List Nat :=
  fillLoopF cb (FIFO_LEN + 2) addr offset hw

/-- The flush loop `while (!(bsc[BSC_FR] & FR_TXFE))`
(src/pi2cslave.c:226-229), structurally recursive on `fuel`; each
iteration is one off/on toggle of CR_TXE and removes one entry from the
TX FIFO, so `fuel = txFifo.length` makes the TXFE test and the fuel run
out simultaneously.  Result: (state, number of toggles performed). -/
def flushLoopF : Nat → TxHw → TxHw × Nat
  | 0, hw => (hw, 0)
  | fuel + 1, hw =>
      if hw.txFifo.isEmpty then (hw, 0)
      else
        match flushLoopF fuel (toggleTXE hw) with
        | (hw2, n) => (hw2, n + 1)

def flushLoop (hw : TxHw) : TxHw × Nat :=
  flushLoopF hw.txFifo.length hw

/-- The whole flush phase: the loop above plus the one extra toggle the
code performs after TXFE reports empty (src/pi2cslave.c:230-231), which
drops the staged-but-never-sent byte. -/
def flushAll (hw : TxHw) : TxHw × Nat :=
  (toggleTXE (flushLoop hw).1, (flushLoop hw).2 + 1)

/-- The outer loop `while (RX_EMPTY())` (src/pi2cslave.c:181-203): as
long as the receive FIFO is empty, run the fill loop, then sleep while
the environment acts (one `MasterStep` per sleep).  The schedule is the
recursion fuel: `none` means the schedule ran out with the master still
never writing, i.e. the C loop would still be running.  Result on normal
exit: (addr, offset, hardware state at loop exit, callback trace). -/
def writePollLoop (cb : Nat → Option Nat) (sched : List MasterStep)
    (addr offset : Nat) (hw : TxHw) : Option (Nat × Nat × TxHw × List Nat) :=
  if hw.rxFifo.isEmpty then
    match sched with
    | [] => none
    | step :: rest =>
        match fillLoop cb addr offset hw with
        | (a1, o1, hw1, t1) =>
            match writePollLoop cb rest a1 o1 (applyMaster step hw1) with
            | none => none
            | some (a, o, h, t) => some (a, o, h, t1 ++ t)
  else some (addr, offset, hw, [])

/-- Model of `bsc_i2c_write(cb, addr)` over an established mapping.
`addr` is a `uint16_t` parameter, hence reduced mod 2^16 at entry.
After the outer loop exits, the return value is computed as
`offset - GET_FR_TXFLEVEL() - 1`, then the TX FIFO is flushed, and a
negative value is clamped to 0 at the return statement.  Result on
normal termination: (return value, final hardware state, addresses
passed to `cb` in order). -/
def bsc_i2c_write (cb : Nat → Option Nat) (sched : List MasterStep)
    (addr : Nat) (hw : TxHw) : Option (Int × TxHw × List Nat) :=
  match writePollLoop cb sched (addr % 65536) 0 hw with
  | none => none
  | some (_, offset, hwE, tr) =>
      some (if (offset : Int) - hwE.txFifo.length - 1 < 0 then 0
            else (offset : Int) - hwE.txFifo.length - 1,
            (flushAll hwE).1, tr)

/-- Model of `bsc_i2c_write` including the global `bsc` pointer, which
the function dereferences with no null check. -/
def bsc_i2c_write_m (bsc : Option TxHw) (cb : Nat → Option Nat)
    (sched : List MasterStep) (addr : Nat) :
    Except RegFault (Option (Int × TxHw × List Nat)) :=
  match bsc with
  | none => .error .nullDeref
  | some hw => .ok (bsc_i2c_write cb sched addr hw)

/-- Number of invocations in a callback trace that supplied a byte. -/
def countSupplied (cb : Nat → Option Nat) (tr : List Nat) : Nat :=
  (tr.filter fun a => (cb a).isSome).length

/-- The address sequence a run starting at `a` passes to the callback:
`a, a+1, ...` reduced mod 2^16. -/
def addrTrace (a n : Nat) : List Nat :=
  (List.range n).map fun i => (a + i) % 65536

/-! ## Lemmas about the receive path -/

theorem readLoop_length (len : Nat) (st : RxState) :
    (readLoop len st).2.length = min len st.rxFifo.length := by
  induction len generalizing st with
  | zero => simp [readLoop]
  | succ n ih =>
      rcases st with ⟨fifo, rsr⟩
      cases fifo with
      | nil => simp [readLoop]
      | cons b rest =>
          rw [readLoop]
          simp only [List.isEmpty_cons, Bool.false_eq_true, if_false, readBody,
            List.length_cons, ih]
          omega

/-- Claim C5: the return value of `bsc_i2c_read_poll` is 0 when the buffer
is null, and otherwise exactly `min max_len (receive FIFO occupancy)`; in
particular it never exceeds `max_len` nor the number of bytes the FIFO
held at call time, it is 0 when `max_len = 0`, and when the FIFO is empty
the loop stops at once with the count read so far. -/
theorem bsc_i2c_read_poll_count (bufNull : Bool) (len : Nat) (st : RxState) :
    (bsc_i2c_read_poll bufNull len st).2.2
        = (if bufNull then 0 else min len st.rxFifo.length)
    ∧ (bsc_i2c_read_poll bufNull len st).2.2 ≤ len
    ∧ (bsc_i2c_read_poll bufNull len st).2.2 ≤ st.rxFifo.length := by
  have h := readLoop_length len st
  by_cases hb : bufNull <;> by_cases hl : len = 0 <;>
    simp [bsc_i2c_read_poll, hb, hl, h]

/-- Every bit of `0xFFFFFFFE` (the `uint32_t` value of `~RSR_OE`) other
than bit 0 is set below bit 32. -/
theorem not_RSR_OE_testBit (i : Nat) (h0 : i ≠ 0) (h32 : i < 32) :
    (0xFFFFFFFE : Nat).testBit i = true := by
  have hm : (0xFFFFFFFE : Nat) = (2 ^ 32 - 1) ^^^ (2 ^ 1 - 1) := by decide
  rw [hm, Nat.testBit_xor, Nat.testBit_two_pow_sub_one, Nat.testBit_two_pow_sub_one,
    decide_eq_true h32, decide_eq_false (by omega : ¬i < 1)]
  rfl

/-- Claim C6: in a read-loop iteration entered with the overrun bit set,
the value written back to RSR has exactly bit 0 cleared — all other bits
are unchanged — and the byte is still popped from the FIFO, masked to 8
bits, and delivered. -/
theorem readBody_overrun_clear (st : RxState) (b : Nat) (rest : List Nat)
    (h32 : st.rsr < 2 ^ 32) (hOE : st.rsr &&& RSR_OE ≠ 0)
    (hf : st.rxFifo = b :: rest) :
    (readBody st).1.rsr.testBit 0 = false
    ∧ (∀ i, i ≠ 0 → (readBody st).1.rsr.testBit i = st.rsr.testBit i)
    ∧ (readBody st).2 = b % 256
    ∧ (readBody st).1.rxFifo = rest := by
  have hbody : readBody st = (⟨rest, st.rsr &&& 0xFFFFFFFE⟩, b % 256) := by
    rw [readBody, hf]
    simp [hOE]
  rw [hbody]
  refine ⟨?_, ?_, rfl, rfl⟩
  · rw [Nat.testBit_and]
    simp [Nat.testBit]
  · intro i hi
    rcases Nat.lt_or_ge i 32 with hlt | hge
    · rw [Nat.testBit_and, not_RSR_OE_testBit i hi hlt, Bool.and_true]
    · have h1 : st.rsr &&& 0xFFFFFFFE < 2 ^ i :=
        lt_of_le_of_lt Nat.and_le_left
          (lt_of_lt_of_le h32 (Nat.pow_le_pow_right (by omega) hge))
      have h2 : st.rsr < 2 ^ i :=
        lt_of_lt_of_le h32 (Nat.pow_le_pow_right (by omega) hge)
      rw [Nat.testBit_lt_two_pow h1, Nat.testBit_lt_two_pow h2]

/-- Witness for `readBody_overrun_clear` at a concrete state: RSR holds
3 (overrun and underrun bits), the FIFO holds the 9-bit value `0x1AB`. -/
theorem readBody_overrun_clear_witness :
    (⟨[0x1AB], 3⟩ : RxState).rsr < 2 ^ 32
    ∧ (⟨[0x1AB], 3⟩ : RxState).rsr &&& RSR_OE ≠ 0
    ∧ ((readBody ⟨[0x1AB], 3⟩).1.rsr.testBit 0 = false
       ∧ (∀ i, i ≠ 0 → (readBody ⟨[0x1AB], 3⟩).1.rsr.testBit i
            = (⟨[0x1AB], 3⟩ : RxState).rsr.testBit i)
       ∧ (readBody ⟨[0x1AB], 3⟩).2 = 0x1AB % 256
       ∧ (readBody ⟨[0x1AB], 3⟩).1.rxFifo = []) :=
  ⟨by decide, by decide,
   readBody_overrun_clear ⟨[0x1AB], 3⟩ 0x1AB [] (by decide) (by decide) rfl⟩

/-- Claim C3 (code bug): when the device opens and the BSC mapping
succeeds but the GPIO mapping fails, `init_bcm_reg_mem` still returns
`true`, because the test after the GPIO `mmap` (src/pi2cslave.c:48)
re-checks `bsc` instead of `gpio_reg`, leaving the intended GPIO failure
branch unreachable. -/
theorem init_bcm_reg_mem_gpio_map_failure :
    init_bcm_reg_mem true (some 0) none = true := by decide

/-! ## Sequencing-violation behaviour (claim C7) -/

/-- Counterexample to claim C7 as stated: `shutdown_bsc_i2c_slv` invoked
before `init_bcm_reg_mem` does not report an error result — it has no
return value and no null check, and stores through the null `bsc`
pointer (src/pi2cslave.c:140-143), modelled as a `RegFault`. -/
theorem shutdown_unmapped_faults :
    shutdown_bsc_i2c_slv none = Except.error RegFault.nullDeref := rfl

/-- Claim C7, amended: of the operations requiring prior setup, only
`init_bsc_i2c_slv` (and `bcm_set_gpio_out`) check the mapping and return
an error result; `shutdown_bsc_i2c_slv`, `bsc_i2c_receiving`,
`bsc_i2c_read_poll` (once `len` is nonzero and the buffer non-null) and
`bsc_i2c_write` access registers through the unestablished mapping
instead of reporting the violation. -/
theorem sequencing_violation_behavior :
    (∀ g a, init_bsc_i2c_slv false g a = (false, g, []))
    ∧ shutdown_bsc_i2c_slv none = .error .nullDeref
    ∧ bsc_i2c_receiving none = .error .nullDeref
    ∧ (∀ len, len ≠ 0 → bsc_i2c_read_poll_m none false len = .error .nullDeref)
    ∧ (∀ cb sched a, bsc_i2c_write_m none cb sched a = .error .nullDeref) := by
  refine ⟨fun g a => by simp [init_bsc_i2c_slv], rfl, rfl,
    fun len h => by simp [bsc_i2c_read_poll_m, h], fun _ _ _ => rfl⟩

/-- Witness for `sequencing_violation_behavior` at concrete inputs. -/
theorem sequencing_violation_behavior_witness :
    init_bsc_i2c_slv false (fun _ => 0) 0x42 = (false, (fun _ => 0), [])
    ∧ bsc_i2c_read_poll_m none false 4 = .error .nullDeref :=
  ⟨sequencing_violation_behavior.1 _ _,
   sequencing_violation_behavior.2.2.2.1 4 (by decide)⟩

/-! ## GPIO pin-range behaviour (claims C8, C10) -/

/-- Counterexample to claim C8 as stated: `gpio_set_mode` has no range
check and cannot fail; on the out-of-range pin 28 it performs two stores
to function-select register index 2. -/
theorem gpio_set_mode_out_of_range_writes :
    (gpio_set_mode (fun _ => 0) 28 GPIO_FUN_IN).2 = [(2, 0), (2, 0)] := by decide

/-- Claim C8, amended: `bcm_set_gpio_out` on a pin outside `[0, 28)`
returns `false` and performs no register write, for every state value;
the internal `gpio_set_mode` performs no validation of its own. -/
theorem bcm_set_gpio_out_invalid_pin (mapped : Bool) (g : Nat → Nat) (gpio : Int)
    (state : gpio_state) (h : gpio < 0 ∨ (GPIO_COUNT : Int) ≤ gpio) :
    bcm_set_gpio_out mapped g gpio state = (false, g, []) := by
  cases mapped with
  | false => simp [bcm_set_gpio_out]
  | true => simp [bcm_set_gpio_out, h]

/-- Witness for `bcm_set_gpio_out_invalid_pin` at pin 28. -/
theorem bcm_set_gpio_out_invalid_pin_witness :
    ((28 : Int) < 0 ∨ (GPIO_COUNT : Int) ≤ 28)
    ∧ bcm_set_gpio_out true (fun _ => 0) 28 .HIGH = (false, (fun _ => 0), []) :=
  ⟨by decide, bcm_set_gpio_out_invalid_pin true _ 28 .HIGH (by decide)⟩

/-- Bit pattern of `~(GPIO_FUN_MASK << shift)` on a `uint32_t`: below bit
32 exactly the three bits of the field are clear. -/
theorem fun_mask_testBit (shift i : Nat) (hs : shift ≤ 27) :
    (0xFFFFFFFF ^^^ (GPIO_FUN_MASK <<< shift)).testBit i
      = (decide (i < 32) && !(decide (shift ≤ i) && decide (i < shift + 3))) := by
  have hm : (0xFFFFFFFF : Nat) = 2 ^ 32 - 1 := by decide
  have h7 : (GPIO_FUN_MASK : Nat) = 2 ^ 3 - 1 := by decide
  rw [hm, h7, Nat.testBit_xor, Nat.testBit_shiftLeft, Nat.testBit_two_pow_sub_one,
    Nat.testBit_two_pow_sub_one]
  by_cases h1 : i < 32 <;> by_cases h2 : shift ≤ i <;> by_cases h3 : i < shift + 3 <;>
    simp [h1, h2, h3, ge_iff_le, decide_eq_true_eq, decide_eq_false_iff_not] <;>
    omega

/-- Claim C10: for an in-range pin, `bcm_set_gpio_out` with
`GPIO_STATE_FLOAT` succeeds, stores only to the function-select register
owning the pin — in particular it writes neither GPSET0 nor GPCLR0, so
every latched output level is untouched — and within that register it
clears exactly the 3-bit function-select field of the pin (setting it to
input), leaving every other bit unchanged. -/
theorem bcm_set_gpio_out_float_frame (g : Nat → Nat) (gpio : Int)
    (h0 : 0 ≤ gpio) (h1 : gpio < 28) (hg : g (gpio.toNat / 10) < 2 ^ 32) :
    (bcm_set_gpio_out true g gpio .FLOAT).1 = true
    ∧ (∀ p ∈ (bcm_set_gpio_out true g gpio .FLOAT).2.2, p.1 = gpio.toNat / 10)
    ∧ (∀ j, j ≠ gpio.toNat / 10 → (bcm_set_gpio_out true g gpio .FLOAT).2.1 j = g j)
    ∧ (bcm_set_gpio_out true g gpio .FLOAT).2.1 GPSET0 = g GPSET0
    ∧ (bcm_set_gpio_out true g gpio .FLOAT).2.1 GPCLR0 = g GPCLR0
    ∧ (∀ i, i < gpio.toNat % 10 * 3 ∨ gpio.toNat % 10 * 3 + 3 ≤ i →
        ((bcm_set_gpio_out true g gpio .FLOAT).2.1 (gpio.toNat / 10)).testBit i
          = (g (gpio.toNat / 10)).testBit i)
    ∧ (∀ i, gpio.toNat % 10 * 3 ≤ i → i < gpio.toNat % 10 * 3 + 3 →
        ((bcm_set_gpio_out true g gpio .FLOAT).2.1 (gpio.toNat / 10)).testBit i = false) := by
  have hcond : ¬(gpio < 0 ∨ (GPIO_COUNT : Int) ≤ gpio) := by
    simp only [GPIO_COUNT, not_or, not_lt, not_le]
    constructor <;> [exact h0; exact_mod_cast h1]
  have hout : bcm_set_gpio_out true g gpio .FLOAT
      = (true, (gpio_set_mode g gpio.toNat GPIO_FUN_IN).1,
         (gpio_set_mode g gpio.toNat GPIO_FUN_IN).2) := by
    simp [bcm_set_gpio_out, hcond]
  have hzero : ∀ v s : Nat, v ||| GPIO_FUN_IN <<< s = v := by
    intro v s
    simp [GPIO_FUN_IN, Nat.zero_shiftLeft]
  have hmode : gpio_set_mode g gpio.toNat GPIO_FUN_IN
      = (updReg (updReg g (gpio.toNat / 10)
            (g (gpio.toNat / 10) &&&
              (0xFFFFFFFF ^^^ (GPIO_FUN_MASK <<< (gpio.toNat % 10 * 3)))))
          (gpio.toNat / 10)
          (g (gpio.toNat / 10) &&&
            (0xFFFFFFFF ^^^ (GPIO_FUN_MASK <<< (gpio.toNat % 10 * 3)))),
         [(gpio.toNat / 10,
           g (gpio.toNat / 10) &&&
             (0xFFFFFFFF ^^^ (GPIO_FUN_MASK <<< (gpio.toNat % 10 * 3)))),
          (gpio.toNat / 10,
           g (gpio.toNat / 10) &&&
             (0xFFFFFFFF ^^^ (GPIO_FUN_MASK <<< (gpio.toNat % 10 * 3))))]) := by
    rw [gpio_set_mode]
    simp only [GPIO_FUN_PER_REG, GPIO_FUN_SHIFT, hzero]
  have hn : gpio.toNat < 28 := by omega
  have hs : gpio.toNat % 10 * 3 ≤ 27 := by omega
  have hat : (bcm_set_gpio_out true g gpio .FLOAT).2.1 (gpio.toNat / 10)
      = g (gpio.toNat / 10) &&&
          (0xFFFFFFFF ^^^ (GPIO_FUN_MASK <<< (gpio.toNat % 10 * 3))) := by
    rw [hout, hmode]
    simp [updReg]
  have hother : ∀ j, j ≠ gpio.toNat / 10 →
      (bcm_set_gpio_out true g gpio .FLOAT).2.1 j = g j := by
    intro j hj
    rw [hout, hmode]
    simp [updReg, hj]
  refine ⟨by rw [hout], ?_, hother, ?_, ?_, ?_, ?_⟩
  · intro p hp
    rw [hout, hmode] at hp
    simp only [List.mem_cons, List.not_mem_nil, or_false] at hp
    rcases hp with h | h <;> rw [h]
  · exact hother GPSET0 (by simp only [GPSET0]; omega)
  · exact hother GPCLR0 (by simp only [GPCLR0]; omega)
  · intro i hi
    rw [hat, Nat.testBit_and, fun_mask_testBit _ _ hs]
    rcases Nat.lt_or_ge i 32 with hlt | hge
    · have : ¬(gpio.toNat % 10 * 3 ≤ i ∧ i < gpio.toNat % 10 * 3 + 3) := by omega
      rcases Nat.lt_or_ge i (gpio.toNat % 10 * 3) with hc | hc
      · rw [decide_eq_true hlt, decide_eq_false (by omega : ¬gpio.toNat % 10 * 3 ≤ i)]
        simp
      · rw [decide_eq_true hlt, decide_eq_true hc,
          decide_eq_false (by omega : ¬i < gpio.toNat % 10 * 3 + 3)]
        simp
    · have hfb : (g (gpio.toNat / 10)).testBit i = false :=
        Nat.testBit_lt_two_pow
          (lt_of_lt_of_le hg (Nat.pow_le_pow_right (by omega) hge))
      rw [hfb, decide_eq_false (by omega : ¬i < 32)]
      simp
  · intro i hlo hhi
    rw [hat, Nat.testBit_and, fun_mask_testBit _ _ hs, decide_eq_true hlo,
      decide_eq_true hhi]
    simp

/-- Witness for `bcm_set_gpio_out_float_frame` at pin 5 with all register
bits initially set: GPSET0 keeps its value. -/
theorem bcm_set_gpio_out_float_frame_witness :
    (0 : Int) ≤ 5 ∧ (5 : Int) < 28
    ∧ (fun _ => 0xFFFFFFFF : Nat → Nat) ((5 : Int).toNat / 10) < 2 ^ 32
    ∧ (bcm_set_gpio_out true (fun _ => 0xFFFFFFFF) 5 .FLOAT).2.1 GPSET0 = 0xFFFFFFFF :=
  ⟨by decide, by decide, by decide,
   ((bcm_set_gpio_out_float_frame (fun _ => 0xFFFFFFFF) 5 (by decide) (by decide)
      (by decide)).2.2.2.1).trans rfl⟩

/-! ## Slave initialization (claim C9) -/

/-- Claim C9: a successful `init_bsc_i2c_slv` stores the 8-bit input
address right-shifted by one bit — a bare 7-bit address, below 128 —
into the slave-address register (its only store to that register), and
its final BSC store is one single control-register write whose value
sets CR_TXE, CR_RXE, CR_I2C and CR_EN together. -/
theorem init_bsc_i2c_slv_programs_slave (g : Nat → Nat) (a : Nat) (ha : a < 256) :
    (init_bsc_i2c_slv true g a).1 = true
    ∧ (init_bsc_i2c_slv true g a).2.2.filter (fun p => p.1 == BSC_SLV)
        = [(BSC_SLV, a >>> 1)]
    ∧ a >>> 1 < 128
    ∧ (init_bsc_i2c_slv true g a).2.2.getLast?
        = some (BSC_CR, CR_TXE ||| CR_RXE ||| CR_I2C ||| CR_EN) := by
  have hmod : a % 256 = a := Nat.mod_eq_of_lt ha
  have hdiv : a >>> 1 = a / 2 := by
    rw [Nat.shiftRight_eq_div_pow]
  refine ⟨by simp [init_bsc_i2c_slv], ?_, by omega, by simp [init_bsc_i2c_slv]⟩
  simp [init_bsc_i2c_slv, hmod, BSC_CR, BSC_RSR, BSC_IMSC, BSC_ICR, BSC_SLV]

/-- Witness for `init_bsc_i2c_slv_programs_slave` at address `0x42`. -/
theorem init_bsc_i2c_slv_programs_slave_witness :
    (0x42 : Nat) < 256
    ∧ (init_bsc_i2c_slv true (fun _ => 0) 0x42).2.2.filter (fun p => p.1 == BSC_SLV)
        = [(BSC_SLV, 0x21)]
    ∧ (init_bsc_i2c_slv true (fun _ => 0) 0x42).2.2.getLast?
        = some (BSC_CR, CR_TXE ||| CR_RXE ||| CR_I2C ||| CR_EN) :=
  ⟨by decide,
   ((init_bsc_i2c_slv_programs_slave (fun _ => 0) 0x42 (by decide)).2.1).trans (by decide),
   (init_bsc_i2c_slv_programs_slave (fun _ => 0) 0x42 (by decide)).2.2.2⟩

/-! ## Lemmas about the transmit path -/

theorem addrTrace_cons (a n : Nat) (ha : a < 65536) :
    a :: addrTrace ((a + 1) % 65536) n = addrTrace a (n + 1) := by
  rw [addrTrace, addrTrace, List.range_succ_eq_map, List.map_cons, List.map_map]
  congr 1
  · omega
  · apply List.map_congr_left
    intro i _
    simp only [Function.comp_apply]
    omega

theorem addrTrace_append (a n m : Nat) :
    addrTrace a (n + m) = addrTrace a n ++ addrTrace ((a + n) % 65536) m := by
  rw [addrTrace, addrTrace, addrTrace, List.range_add, List.map_append, List.map_map]
  congr 1
  apply List.map_congr_left
  intro i _
  simp only [Function.comp_apply]
  omega

theorem countSupplied_cons (cb : Nat → Option Nat) (a : Nat) (tr : List Nat) :
    countSupplied cb (a :: tr)
      = (if (cb a).isSome then 1 else 0) + countSupplied cb tr := by
  cases h : (cb a).isSome <;> simp [countSupplied, List.filter_cons, h]
  omega

theorem countSupplied_append (cb : Nat → Option Nat) (t1 t2 : List Nat) :
    countSupplied cb (t1 ++ t2) = countSupplied cb t1 + countSupplied cb t2 := by
  simp [countSupplied, List.filter_append]

/-- Invariants of the inner fill loop, for any fuel: the callback trace
is the consecutive address sequence starting at `addr` (mod 2^16), the
loop leaves the address counter advanced once per invocation, and the
queued-byte counter `offset` advanced exactly by the number of
invocations that supplied a byte. -/
theorem fillLoopF_spec (cb : Nat → Option Nat) :
    ∀ (fuel addr offset : Nat) (hw : TxHw) (a2 o2 : Nat) (hw2 : TxHw) (tr : List Nat),
      addr < 65536 →
      fillLoopF cb fuel addr offset hw = (a2, o2, hw2, tr) →
      tr = addrTrace addr tr.length
      ∧ a2 = (addr + tr.length) % 65536
      ∧ o2 = offset + countSupplied cb tr := by
  intro fuel
  induction fuel with
  | zero =>
      intro addr offset hw a2 o2 hw2 tr ha h
      simp only [fillLoopF, Prod.mk.injEq] at h
      obtain ⟨rfl, rfl, rfl, rfl⟩ := h
      exact ⟨rfl, by simp [Nat.mod_eq_of_lt ha], by simp [countSupplied]⟩
  | succ f ih =>
      intro addr offset hw a2 o2 hw2 tr ha h
      rw [fillLoopF] at h
      by_cases hfull : FIFO_LEN ≤ hw.txFifo.length
      · rw [if_pos hfull] at h
        simp only [Prod.mk.injEq] at h
        obtain ⟨rfl, rfl, rfl, rfl⟩ := h
        exact ⟨rfl, by simp [Nat.mod_eq_of_lt ha], by simp [countSupplied]⟩
      · rw [if_neg hfull] at h
        cases hcb : cb addr with
        | some b =>
            simp only [hcb] at h
            rcases hr : fillLoopF cb f ((addr + 1) % 65536) (offset + 1)
                (pushDR (b % 256) (clearUE hw)) with ⟨ra, ro, rhw, rtr⟩
            simp only [hr, Prod.mk.injEq] at h
            obtain ⟨rfl, rfl, rfl, rfl⟩ := h
            obtain ⟨htr, haddr, hoff⟩ :=
              ih ((addr + 1) % 65536) (offset + 1) (pushDR (b % 256) (clearUE hw))
                ra ro rhw rtr (Nat.mod_lt _ (by omega)) hr
            refine ⟨?_, ?_, ?_⟩
            · rw [List.length_cons, ← addrTrace_cons addr rtr.length ha]
              exact congrArg (addr :: ·) htr
            · rw [List.length_cons]
              omega
            · rw [countSupplied_cons, hcb]
              simp only [Option.isSome_some, if_true]
              omega
        | none =>
            simp only [hcb, Prod.mk.injEq] at h
            obtain ⟨rfl, rfl, rfl, rfl⟩ := h
            refine ⟨?_, by simp, ?_⟩
            · have h1 : addrTrace addr 1 = [(addr + 0) % 65536] := rfl
              simp only [List.length_singleton, h1]
              congr 1
              omega
            · rw [countSupplied_cons, hcb]
              simp [countSupplied]

/-- Invariants of the outer loop of `bsc_i2c_write`, for any run that
exits normally: same trace, address and count facts as the fill loop,
accumulated across all passes. -/
theorem writePollLoop_spec (cb : Nat → Option Nat) :
    ∀ (sched : List MasterStep) (addr offset : Nat) (hw : TxHw)
      (a2 o2 : Nat) (hw2 : TxHw) (tr : List Nat),
      addr < 65536 →
      writePollLoop cb sched addr offset hw = some (a2, o2, hw2, tr) →
      tr = addrTrace addr tr.length
      ∧ a2 = (addr + tr.length) % 65536
      ∧ o2 = offset + countSupplied cb tr := by
  intro sched
  induction sched with
  | nil =>
      intro addr offset hw a2 o2 hw2 tr ha h
      rw [writePollLoop] at h
      by_cases hrx : hw.rxFifo.isEmpty
      · rw [if_pos hrx] at h
        simp at h
      · rw [if_neg hrx] at h
        simp only [Option.some.injEq, Prod.mk.injEq] at h
        obtain ⟨rfl, rfl, rfl, rfl⟩ := h
        exact ⟨rfl, by simp [Nat.mod_eq_of_lt ha], by simp [countSupplied]⟩
  | cons step rest ih =>
      intro addr offset hw a2 o2 hw2 tr ha h
      rw [writePollLoop] at h
      by_cases hrx : hw.rxFifo.isEmpty
      · rw [if_pos hrx] at h
        rcases hf : fillLoop cb addr offset hw with ⟨a1, o1, hw1, t1⟩
        simp only [hf] at h
        cases hrec : writePollLoop cb rest a1 o1 (applyMaster step hw1) with
        | none =>
            simp [hrec] at h
        | some q =>
            rcases q with ⟨a, o, hq, t⟩
            simp only [hrec, Option.some.injEq, Prod.mk.injEq] at h
            obtain ⟨rfl, rfl, rfl, rfl⟩ := h
            obtain ⟨ht1, ha1, ho1⟩ := fillLoopF_spec cb _ addr offset hw a1 o1 hw1 t1 ha hf
            obtain ⟨ht, haa, hoo⟩ :=
              ih a1 o1 (applyMaster step hw1) a o hq t
                (by rw [ha1]; exact Nat.mod_lt _ (by omega)) hrec
            refine ⟨?_, ?_, ?_⟩
            · rw [List.length_append, addrTrace_append addr t1.length t.length, ← ht1,
                ← ha1, ← ht]
            · rw [List.length_append]
              omega
            · rw [countSupplied_append]
              omega
      · rw [if_neg hrx] at h
        simp only [Option.some.injEq, Prod.mk.injEq] at h
        obtain ⟨rfl, rfl, rfl, rfl⟩ := h
        exact ⟨rfl, by simp [Nat.mod_eq_of_lt ha], by simp [countSupplied]⟩

theorem toggleTXE_txFifo (hw : TxHw) :
    (toggleTXE hw).txFifo = hw.txFifo.tail := by
  rcases hw with ⟨rx, fifo, st, rsr⟩
  cases fifo <;> simp [toggleTXE, restage]

theorem toggleTXE_of_empty (hw : TxHw) (h : hw.txFifo = []) :
    toggleTXE hw = { hw with staged := none } := by
  rcases hw with ⟨rx, fifo, st, rsr⟩
  simp only at h
  subst h
  simp [toggleTXE, restage]

/-- The flush loop performs exactly one toggle per entry the TX FIFO
held, and leaves the TX FIFO empty, whenever the fuel covers the FIFO
occupancy (the fuel used by `flushLoop` is exactly the occupancy). -/
theorem flushLoopF_spec :
    ∀ (fuel : Nat) (hw : TxHw), hw.txFifo.length ≤ fuel →
      (flushLoopF fuel hw).2 = hw.txFifo.length
      ∧ (flushLoopF fuel hw).1.txFifo = [] := by
  intro fuel
  induction fuel with
  | zero =>
      intro hw hlen
      have h0 : hw.txFifo = [] := List.eq_nil_of_length_eq_zero (by omega)
      rw [flushLoopF]
      simp [h0]
  | succ f ih =>
      intro hw hlen
      rw [flushLoopF]
      by_cases he : hw.txFifo.isEmpty
      · have h0 : hw.txFifo = [] := List.isEmpty_iff.mp he
        simp [he, h0]
      · rw [if_neg he]
        have hne : hw.txFifo ≠ [] := by
          intro hc
          rw [hc] at he
          exact he rfl
        obtain ⟨b, rest, hbr⟩ := List.exists_cons_of_ne_nil hne
        have hlt : (toggleTXE hw).txFifo.length ≤ f := by
          rw [toggleTXE_txFifo, hbr, List.tail_cons]
          have hlen2 : hw.txFifo.length ≤ f + 1 := hlen
          rw [hbr, List.length_cons] at hlen2
          omega
        obtain ⟨hc, hf2⟩ := ih (toggleTXE hw) hlt
        rcases hr : flushLoopF f (toggleTXE hw) with ⟨hw2, n⟩
        rw [hr] at hc hf2
        simp only [hr]
        refine ⟨?_, hf2⟩
        simp only at hc ⊢
        rw [toggleTXE_txFifo, hbr, List.tail_cons] at hc
        rw [hbr, List.length_cons]
        omega

/-- The complete flush phase: occupancy-many toggles plus the one extra,
ending with both the TX FIFO and the staged byte empty. -/
theorem flushAll_spec (hw : TxHw) :
    (flushAll hw).2 = hw.txFifo.length + 1
    ∧ (flushAll hw).1.txFifo = []
    ∧ (flushAll hw).1.staged = none := by
  obtain ⟨hc, hf⟩ := flushLoopF_spec hw.txFifo.length hw le_rfl
  have h1 : (flushLoop hw).2 = hw.txFifo.length := hc
  have h2 : (flushLoop hw).1.txFifo = [] := hf
  rw [flushAll, toggleTXE_of_empty _ h2]
  exact ⟨by rw [h1], h2, rfl⟩

/-- Claim C1: for every normally-terminating run of `bsc_i2c_write`, the
return value equals the number of bytes queued by successful callback
invocations, minus the TX FIFO occupancy level at outer-loop exit, minus
one, with a negative value clamped to 0 at the return statement;
consequently the return value is never negative and never exceeds the
number of bytes the callback supplied. -/
theorem bsc_i2c_write_return_value (cb : Nat → Option Nat) (sched : List MasterStep)
    (addr : Nat) (hw : TxHw) (a2 off : Nat) (hwE : TxHw) (tr : List Nat)
    (h : writePollLoop cb sched (addr % 65536) 0 hw = some (a2, off, hwE, tr)) :
    bsc_i2c_write cb sched addr hw
      = some (if (countSupplied cb tr : Int) - hwE.txFifo.length - 1 < 0 then 0
              else (countSupplied cb tr : Int) - hwE.txFifo.length - 1,
              (flushAll hwE).1, tr)
    ∧ (0 : Int) ≤ (if (countSupplied cb tr : Int) - hwE.txFifo.length - 1 < 0 then 0
              else (countSupplied cb tr : Int) - hwE.txFifo.length - 1)
    ∧ (if (countSupplied cb tr : Int) - hwE.txFifo.length - 1 < 0 then 0
              else (countSupplied cb tr : Int) - hwE.txFifo.length - 1)
        ≤ (countSupplied cb tr : Int) := by
  obtain ⟨-, -, ho⟩ := writePollLoop_spec cb sched (addr % 65536) 0 hw a2 off hwE tr
      (Nat.mod_lt _ (by omega)) h
  have hoff : off = countSupplied cb tr := by omega
  refine ⟨?_, ?_, ?_⟩
  · rw [bsc_i2c_write]
    simp only [h, hoff]
  · split <;> omega
  · split <;> omega

/-- Witness for `bsc_i2c_write_return_value`: the callback supplies one
byte at address 5 and refuses at 6; the master never reads and then
writes one byte; the returned count is 0 (one byte queued, one byte
staged-but-unsent). -/
theorem bsc_i2c_write_return_value_witness :
    writePollLoop (fun a => if a = 5 then some 17 else none) [⟨0, [9]⟩] (5 % 65536) 0
        ⟨[], [], none, 0⟩ = some (7, 1, ⟨[9], [], some 17, 0⟩, [5, 6])
    ∧ bsc_i2c_write (fun a => if a = 5 then some 17 else none) [⟨0, [9]⟩] 5
        ⟨[], [], none, 0⟩ = some (0, ⟨[9], [], none, 0⟩, [5, 6]) :=
  ⟨by decide,
   ((bsc_i2c_write_return_value (fun a => if a = 5 then some 17 else none)
      [⟨0, [9]⟩] 5 ⟨[], [], none, 0⟩ 7 1 ⟨[9], [], some 17, 0⟩ [5, 6]
      (by decide)).1).trans (by decide)⟩

/-- Claim C2: the flush loop performs exactly one CR_TXE toggle per byte
the TX FIFO holds when the flush phase begins (so at most that occupancy
many iterations), then exactly one further toggle after TXFE reports
empty; and every normally-terminating run of `bsc_i2c_write` returns
with the simulated transmit side fully empty — FIFO and staged byte. -/
theorem bsc_i2c_write_flush_empties (cb : Nat → Option Nat) (sched : List MasterStep)
    (addr : Nat) (hw0 : TxHw) (r : Int) (hwF : TxHw) (tr : List Nat)
    (h : bsc_i2c_write cb sched addr hw0 = some (r, hwF, tr)) :
    hwF.txFifo = [] ∧ hwF.staged = none
    ∧ (∀ hw : TxHw, (flushLoop hw).2 = hw.txFifo.length
        ∧ (flushAll hw).2 = hw.txFifo.length + 1
        ∧ (flushAll hw).1.txFifo = [] ∧ (flushAll hw).1.staged = none) := by
  have hall : ∀ hw : TxHw, (flushLoop hw).2 = hw.txFifo.length
      ∧ (flushAll hw).2 = hw.txFifo.length + 1
      ∧ (flushAll hw).1.txFifo = [] ∧ (flushAll hw).1.staged = none :=
    fun hw => ⟨(flushLoopF_spec hw.txFifo.length hw le_rfl).1, (flushAll_spec hw).1,
      (flushAll_spec hw).2.1, (flushAll_spec hw).2.2⟩
  rw [bsc_i2c_write] at h
  cases hrun : writePollLoop cb sched (addr % 65536) 0 hw0 with
  | none =>
      rw [hrun] at h
      simp at h
  | some q =>
      rcases q with ⟨a, off, hwE, t⟩
      simp only [hrun, Option.some.injEq, Prod.mk.injEq] at h
      obtain ⟨-, hF, -⟩ := h
      rw [← hF]
      exact ⟨(flushAll_spec hwE).2.1, (flushAll_spec hwE).2.2, hall⟩

/-- Witness for `bsc_i2c_write_flush_empties`: the master is already
writing, so the run exits at once and flushes the two queued bytes plus
the staged one. -/
theorem bsc_i2c_write_flush_empties_witness :
    bsc_i2c_write (fun _ => none) [] 0 ⟨[7], [1, 2], some 5, 0⟩
      = some (0, ⟨[7], [], none, 0⟩, [])
    ∧ (⟨[7], [], none, 0⟩ : TxHw).txFifo = []
    ∧ (⟨[7], [], none, 0⟩ : TxHw).staged = none :=
  ⟨by decide,
   (bsc_i2c_write_flush_empties (fun _ => none) [] 0 ⟨[7], [1, 2], some 5, 0⟩ 0
      ⟨[7], [], none, 0⟩ [] (by decide)).1,
   (bsc_i2c_write_flush_empties (fun _ => none) [] 0 ⟨[7], [1, 2], some 5, 0⟩ 0
      ⟨[7], [], none, 0⟩ [] (by decide)).2.1⟩

/-- Claim C4: in every normally-terminating run of `bsc_i2c_write`
starting at address `addr`, the (0-based) i-th callback invocation
receives address `(addr + i) mod 2^16` — the counter advances once per
invocation regardless of outcome — while the queued-byte count equals
the number of invocations that supplied a byte. -/
theorem bsc_i2c_write_address_sequence (cb : Nat → Option Nat) (sched : List MasterStep)
    (addr : Nat) (hw : TxHw) (a2 off : Nat) (hwE : TxHw) (tr : List Nat)
    (h : writePollLoop cb sched (addr % 65536) 0 hw = some (a2, off, hwE, tr)) :
    (∀ i (hi : i < tr.length), tr.get ⟨i, hi⟩ = (addr + i) % 65536)
    ∧ off = countSupplied cb tr := by
  obtain ⟨htr, -, ho⟩ := writePollLoop_spec cb sched (addr % 65536) 0 hw a2 off hwE tr
      (Nat.mod_lt _ (by omega)) h
  refine ⟨?_, by omega⟩
  intro i hi
  have hg := List.get_of_eq htr ⟨i, hi⟩
  rw [hg]
  simp only [addrTrace, List.get_eq_getElem, Fin.coe_cast, List.getElem_map,
    List.getElem_range]
  omega

/-- Witness for `bsc_i2c_write_address_sequence` on the same run as the
C1 witness: the two invocations receive addresses 5 and 6, and exactly
one of them supplied a byte. -/
theorem bsc_i2c_write_address_sequence_witness :
    writePollLoop (fun a => if a = 5 then some 17 else none) [⟨0, [9]⟩] (5 % 65536) 0
        ⟨[], [], none, 0⟩ = some (7, 1, ⟨[9], [], some 17, 0⟩, [5, 6])
    ∧ (∀ i (hi : i < [5, 6].length), [5, 6].get ⟨i, hi⟩ = (5 + i) % 65536)
    ∧ (1 : Nat) = countSupplied (fun a => if a = 5 then some 17 else none) [5, 6] :=
  ⟨by decide,
   (bsc_i2c_write_address_sequence (fun a => if a = 5 then some 17 else none)
      [⟨0, [9]⟩] 5 ⟨[], [], none, 0⟩ 7 1 ⟨[9], [], some 17, 0⟩ [5, 6] (by decide)).1,
   (bsc_i2c_write_address_sequence (fun a => if a = 5 then some 17 else none)
      [⟨0, [9]⟩] 5 ⟨[], [], none, 0⟩ 7 1 ⟨[9], [], some 17, 0⟩ [5, 6] (by decide)).2⟩
